import Mathlib

/-!
Verification of the ESB routing/dispatch engine (src/esb/controller.rs and
src/node.rs): endpoint registry, routing-decision algorithm, poll-driven
run loop, handler contract and the error-escalation boundary.

The embedding follows the source: stateful Rust methods become pure
functions returning a (result, new state) pair; the external transport
session is a record with explicit queues, an outbound log and failure
oracles; the handler trait becomes a record of state-transition functions.
-/

set_option autoImplicit false

namespace Esb

/-- Serialized payload bytes (`request.serialize()` output / frame `msg`). -/
abbrev Data := List Nat

/-- A decoded inbound transmission: explicit source, destination, payload
(`internet2` routed frame as consumed by `recv_routed_message`). -/
structure RoutedFrame (A : Type) where
  src : A
  dst : A
  msg : Data
  deriving Repr

/-- One transport-level send as issued by `send_routed_message`:
source, next hop picked by the routing rule, final destination, payload. -/
structure SendAction (A : Type) where
  src : A
  hop : A
  dst : A
  data : Data
  deriving Repr

/-- External transport session (zmq socket wrapped by `session::Raw`).
`inbound` is the queue of pending frames, `outbound` the log of frames the
session has accepted for sending; the `Option Nat` fields are failure
oracles for the fallible transport operations (`none` = success). -/
structure Session (A : Type) where
  identityBound : Option A := none
  routerMandatory : Bool := false
  inbound : List (RoutedFrame A) := []
  outbound : List (SendAction A) := []
  sendResult : A → A → A → Data → Option Nat := fun _ _ _ _ => none
  recvError : Option Nat := none
  setIdentityError : Option Nat := none
  setRouterMandatoryError : Option Nat := none

/-- Modelled from the spec: the unified `Error` enum of §7 is declared
outside the provided sources (`src/esb/mod.rs`); its variants and payloads
are taken from the spec taxonomy and from the construction sites in
`controller.rs` (`Error::UnknownBusId(bus_id.to_string())`,
`Error::Send(src, dst, err)`, session/decode errors converted via `From`).
Transport, decode and handler error details are opaque `Nat` codes. -/
inductive EsbError (A : Type) where
  | unknownBusId (bus : String)
  | send (source : A) (dest : A) (err : Nat)
  | transport (err : Nat)
  | decode (err : Nat)
  | session (err : Nat)
  deriving Repr

/-- `Session.send_routed_message`: consult the failure oracle; on success
append the addressed frame to the outbound log, on failure leave the
session unchanged. -/
def Session.sendRoutedMessage {A : Type} (s : Session A) (src hop dst : A)
    (data : Data) : Except Nat Unit × Session A :=
  match s.sendResult src hop dst data with
  | some e => (.error e, s)
  | none => (.ok (), { s with outbound := s.outbound ++ [⟨src, hop, dst, data⟩] })

/-- `Session.recv_routed_message`: pop one pending frame; fails when the
receive oracle is set (an empty queue is also a failure code here, since a
blocking receive on a non-ready bus never happens in the source loops). -/
def Session.recvRoutedMessage {A : Type} (s : Session A) :
    Except Nat (RoutedFrame A) × Session A :=
  match s.recvError with
  | some e => (.error e, s)
  | none =>
    match s.inbound with
    | [] => (.error 0, s)
    | f :: rest => (.ok f, { s with inbound := rest })

/-- `Session.set_identity`: rebind the identity the session presents. -/
def Session.setIdentity {A : Type} (s : Session A) (a : A) :
    Except Nat Unit × Session A :=
  match s.setIdentityError with
  | some e => (.error e, s)
  | none => (.ok (), { s with identityBound := some a })

/-- `Endpoint`: one transport session paired with an optional resolved
router address for one bus (struct `Endpoint<A>` in controller.rs). -/
structure Endpoint (A : Type) where
  session : Session A
  router : Option A

/-- The next-hop rule as worded in the spec (§4.1), evaluated in order:
(1) no router → dest; (2) router and source equals it → dest;
(3) otherwise → the router. Kept separate from the code translation so the
two can be compared. -/
def specNextHop {A : Type} [DecidableEq A] (router : Option A)
    (source dest : A) : A :=
  match router with
  | none => dest
  | some r => if source = r then dest else r

/-- `Endpoint::send_to`: serialize the request, compute the next hop by the
match on `self.router`, and issue one routed transport send; a transport
failure is wrapped as `Error::Send(src, dst, err)`. -/
def Endpoint.sendTo {A R : Type} [DecidableEq A] (ep : Endpoint A)
    (serialize : R → Data) (source dest : A) (request : R) :
    Except (EsbError A) Unit × Endpoint A :=
  let data := serialize request
  let router :=
    match ep.router with
    | none => dest
    | some r => if source = r then dest else r
  let step := ep.session.sendRoutedMessage source router dest data
  match step.1 with
  | .error err => (.error (.send source dest err), { ep with session := step.2 })
  | .ok _ => (.ok (), { ep with session := step.2 })

/-- `Endpoint::set_identity`: delegate to the session, converting the
transport error. -/
def Endpoint.setIdentity {A : Type} (ep : Endpoint A) (identity : A) :
    Except (EsbError A) Unit × Endpoint A :=
  let step := ep.session.setIdentity identity
  match step.1 with
  | .error e => (.error (.transport e), { ep with session := step.2 })
  | .ok _ => (.ok (), { ep with session := step.2 })

/-- `EndpointList<B>`: the registry, a map from bus id to endpoint
(a `HashMap` in the source, embedded as an association list). -/
structure EndpointList (B A : Type) where
  list : List (B × Endpoint A)

/-- First-occurrence association-list lookup (`HashMap::get_mut`). -/
def EndpointList.get? {B A : Type} [DecidableEq B] (l : EndpointList B A)
    (bus : B) : Option (Endpoint A) :=
  (l.list.find? (fun p => decide (p.1 = bus))).map Prod.snd

/-- Replace the value stored at the first occurrence of a key; identity when
the key is absent (writing back through a `get_mut` borrow). -/
def setEntries {B A : Type} [DecidableEq B] (bus : B) (ep : Endpoint A) :
    List (B × Endpoint A) → List (B × Endpoint A)
  | [] => []
  | p :: rest => if p.1 = bus then (bus, ep) :: rest else p :: setEntries bus ep rest

/-- Registry update at a key (see `setEntries`). -/
def EndpointList.set {B A : Type} [DecidableEq B] (l : EndpointList B A)
    (bus : B) (ep : Endpoint A) : EndpointList B A :=
  ⟨setEntries bus ep l.list⟩

/-- `HashMap::insert`: overwrite the entry for the key when present,
otherwise add a new entry. -/
def EndpointList.insert {B A : Type} [DecidableEq B] (l : EndpointList B A)
    (bus : B) (ep : Endpoint A) : EndpointList B A :=
  if (l.get? bus).isSome then l.set bus ep else ⟨l.list ++ [(bus, ep)]⟩

/-- The bus ids registered in the registry, in storage order. -/
def EndpointList.keys {B A : Type} (l : EndpointList B A) : List B :=
  l.list.map Prod.fst

/-- `EndpointList::send_to`: look up the bus; `UnknownBusId` when absent,
otherwise delegate to `Endpoint::send_to` and store the updated endpoint. -/
def EndpointList.sendTo {B A R : Type} [DecidableEq B] [DecidableEq A]
    (l : EndpointList B A) (bstr : B → String) (serialize : R → Data)
    (bus : B) (source dest : A) (request : R) :
    Except (EsbError A) Unit × EndpointList B A :=
  match l.get? bus with
  | none => (.error (.unknownBusId (bstr bus)), l)
  | some ep =>
    let step := ep.sendTo serialize source dest request
    (step.1, l.set bus step.2)

/-- `EndpointList::set_identity`: look up the bus; `UnknownBusId` when
absent, otherwise delegate to `Endpoint::set_identity`. -/
def EndpointList.setIdentity {B A : Type} [DecidableEq B]
    (l : EndpointList B A) (bstr : B → String) (bus : B) (identity : A) :
    Except (EsbError A) Unit × EndpointList B A :=
  match l.get? bus with
  | none => (.error (.unknownBusId (bstr bus)), l)
  | some ep =>
    let step := ep.setIdentity identity
    (step.1, l.set bus step.2)

/-- The `Handler<B>` trait: a record of capability functions over an opaque
handler state `H`. `handle`, `handle_err` and `on_ready` receive the
registry by mutable borrow and return a result already converted into the
unified error type (the `From<H::Error>` bound). -/
structure HandlerImpl (B A R H : Type) where
  identity : H → A
  onReady : H → EndpointList B A → Except (EsbError A) Unit × H × EndpointList B A
  handle : H → EndpointList B A → B → A → R →
    Except (EsbError A) Unit × H × EndpointList B A
  handleErr : H → EndpointList B A → EsbError A →
    Except (EsbError A) Unit × H × EndpointList B A

/-- Modelled from the spec: `BusConfig` is declared outside the provided
sources; its fields `carrier`, `queued`, `router` are those read in
`add_service_bus`. A locator carrier is embedded as an external session
factory taking the identity the controller passes to
`with_zmq_unencrypted` (which may fail); a socket carrier adopts a
pre-built session. -/
inductive Carrier (A : Type) where
  | locator (mk : A → Except Nat (Session A))
  | socket (s : Session A)

/-- Per-bus registration-time configuration (see `Carrier`). -/
structure BusConfig (A : Type) where
  carrier : Carrier A
  queued : Bool
  router : Option A

/-- `Controller<B, R, H>`: registry, decoder, handler. The serializer of
the `Request` bound and the `Display` of the bus id are carried explicitly. -/
structure Controller (B A R H : Type) where
  senders : EndpointList B A
  himpl : HandlerImpl B A R H
  handler : H
  unmarshall : Data → Except Nat R
  serialize : R → Data
  bstr : B → String

/-- The `config.carrier` match of `add_service_bus`: a locator is resolved
by the external session factory (which receives the handler identity), a
socket carrier adopts the pre-built session. -/
def resolveCarrier {A : Type} (carrier : Carrier A) (ident : A) :
    Except Nat (Session A) :=
  match carrier with
  | .locator mkFn => mkFn ident
  | .socket s => .ok s

/-- The `if !config.queued` block of `add_service_bus`: enforce strict
routing (`set_router_mandatory(true)`, which may fail) on non-queued buses. -/
def applyQueued {A : Type} (queued : Bool) (s : Session A) :
    Except (EsbError A) (Session A) :=
  if !queued then
    match s.setRouterMandatoryError with
    | some e => .error (.session e)
    | none => .ok { s with routerMandatory := true }
  else .ok s

/-- The router match of `add_service_bus`: a configured router equal to the
handler identity collapses to none; anything else is stored verbatim. -/
def effectiveRouter {A : Type} [DecidableEq A] (router : Option A)
    (ident : A) : Option A :=
  match router with
  | some r => if r = ident then none else some r
  | none => none

/-- `Controller::add_service_bus`: resolve the carrier into a session,
enforce strict routing when the bus is not queued, compute the effective
router, and insert the endpoint keyed by the bus id. -/
def Controller.addServiceBus {B A R H : Type} [DecidableEq B] [DecidableEq A]
    (ctl : Controller B A R H) (id : B) (config : BusConfig A) :
    Except (EsbError A) (Controller B A R H) :=
  match resolveCarrier config.carrier (ctl.himpl.identity ctl.handler) with
  | .error e => .error (.session e)
  | .ok newSession =>
    match applyQueued config.queued newSession with
    | .error e => .error e
    | .ok sess =>
      .ok { ctl with senders := ctl.senders.insert id ⟨sess,
        effectiveRouter config.router (ctl.himpl.identity ctl.handler)⟩ }

/-- `Controller::send_to`: convenience send using the handler identity as
source. -/
def Controller.sendTo {B A R H : Type} [DecidableEq B] [DecidableEq A]
    (ctl : Controller B A R H) (bus : B) (dest : A) (request : R) :
    Except (EsbError A) Unit × Controller B A R H :=
  let step := ctl.senders.sendTo ctl.bstr ctl.serialize bus
    (ctl.himpl.identity ctl.handler) dest request
  (step.1, { ctl with senders := step.2 })

/-- `Controller::poll`: every registered bus whose session signals readable
data (pending inbound frames), in registry order. -/
def Controller.poll {B A R H : Type} (ctl : Controller B A R H) : List B :=
  (ctl.senders.list.filter (fun p => !p.2.session.inbound.isEmpty)).map Prod.fst

/-- Observable events of the run loop, emitted at the call sites of the
handler callbacks and of the relay re-send in `Controller::run`. -/
inductive Event (B A R : Type) where
  | onReadyCalled (res : Except (EsbError A) Unit)
  | handleCalled (bus : B) (source : A) (request : R) (res : Except (EsbError A) Unit)
  | handleErrCalled (err : EsbError A) (res : Except (EsbError A) Unit)
  | resent (bus : B) (source : A) (dest : A) (request : R)

/-- Result of a loop step: normal value, propagated error (`?`), or a
process abort (the `expect("must exist, just indexed")` call). -/
inductive Outcome (A : Type) (α : Type) where
  | ok (val : α)
  | error (e : EsbError A)
  | panic (msg : String)

/-- The body of the `for bus_id in self.poll()?` loop of `Controller::run`
for one ready bus: look the bus up (aborting like `expect` when absent),
receive one frame, decode it, then dispatch: destination equal to the
handler identity invokes `handle`, any other destination re-sends the
identical message through the registry routing. -/
def Controller.processBus {B A R H : Type} [DecidableEq B] [DecidableEq A]
    (ctl : Controller B A R H) (bus : B) :
    Outcome A Unit × Controller B A R H × List (Event B A R) :=
  match ctl.senders.get? bus with
  | none => (.panic "must exist, just indexed", ctl, [])
  | some ep =>
    let rcv := ep.session.recvRoutedMessage
    let ctl1 := { ctl with senders := ctl.senders.set bus { ep with session := rcv.2 } }
    match rcv.1 with
    | .error e => (.error (.transport e), ctl1, [])
    | .ok frame =>
      match ctl1.unmarshall frame.msg with
      | .error e => (.error (.decode e), ctl1, [])
      | .ok request =>
        if frame.dst = ctl1.himpl.identity ctl1.handler then
          let step := ctl1.himpl.handle ctl1.handler ctl1.senders bus frame.src request
          ((match step.1 with | .ok _ => .ok () | .error e => .error e),
           { ctl1 with handler := step.2.1, senders := step.2.2 },
           [.handleCalled bus frame.src request step.1])
        else
          let step := ctl1.senders.sendTo ctl1.bstr ctl1.serialize bus
            frame.src frame.dst request
          ((match step.1 with | .ok _ => .ok () | .error e => .error e),
           { ctl1 with senders := step.2 },
           [.resent bus frame.src frame.dst request])

/-- `Controller::run` after its initial poll: process each ready bus in
turn, stopping at the first error or abort (the `?` operator). -/
def Controller.runBuses {B A R H : Type} [DecidableEq B] [DecidableEq A] :
    Controller B A R H → List B →
    Outcome A Unit × Controller B A R H × List (Event B A R)
  | ctl, [] => (.ok (), ctl, [])
  | ctl, bus :: rest =>
    match ctl.processBus bus with
    | (.ok _, ctl1, tr) =>
      let next := Controller.runBuses ctl1 rest
      (next.1, next.2.1, tr ++ next.2.2)
    | (out, ctl1, tr) => (out, ctl1, tr)

/-- `Controller::run`: one pass — poll, then drain and dispatch every ready
bus. -/
def Controller.run {B A R H : Type} [DecidableEq B] [DecidableEq A]
    (ctl : Controller B A R H) :
    Outcome A Unit × Controller B A R H × List (Event B A R) :=
  Controller.runBuses ctl ctl.poll

/-- The body of `Controller::recv_poll` over the remaining ready buses:
receive and decode one frame per bus, accumulating (bus, source, request)
tuples; no dispatch and no re-send. -/
def Controller.recvPollGo {B A R H : Type} [DecidableEq B] [DecidableEq A] :
    Controller B A R H → List B → List (B × A × R) →
    Outcome A (List (B × A × R)) × Controller B A R H
  | ctl, [], acc => (.ok acc, ctl)
  | ctl, bus :: rest, acc =>
    match ctl.senders.get? bus with
    | none => (.panic "must exist, just indexed", ctl)
    | some ep =>
      let rcv := ep.session.recvRoutedMessage
      let ctl1 := { ctl with senders := ctl.senders.set bus { ep with session := rcv.2 } }
      match rcv.1 with
      | .error e => (.error (.transport e), ctl1)
      | .ok frame =>
        match ctl1.unmarshall frame.msg with
        | .error e => (.error (.decode e), ctl1)
        | .ok request => Controller.recvPollGo ctl1 rest (acc ++ [(bus, frame.src, request)])

/-- `Controller::recv_poll`: poll, then one receive-and-decode pass. -/
def Controller.recvPoll {B A R H : Type} [DecidableEq B] [DecidableEq A]
    (ctl : Controller B A R H) :
    Outcome A (List (B × A × R)) × Controller B A R H :=
  Controller.recvPollGo ctl ctl.poll []

/-- One iteration of the loop body of `try_run_loop`: `run()`, and on error
funnel the error to `handle_err`; an error raised by `handle_err` itself is
the iteration result. -/
def Controller.loopIter {B A R H : Type} [DecidableEq B] [DecidableEq A]
    (ctl : Controller B A R H) :
    Outcome A Unit × Controller B A R H × List (Event B A R) :=
  match ctl.run with
  | (.ok _, ctl1, tr) => (.ok (), ctl1, tr)
  | (.error err, ctl1, tr) =>
    let step := ctl1.himpl.handleErr ctl1.handler ctl1.senders err
    ((match step.1 with | .ok _ => .ok () | .error e => .error e),
     { ctl1 with handler := step.2.1, senders := step.2.2 },
     tr ++ [.handleErrCalled err step.1])
  | (.panic m, ctl1, tr) => (.panic m, ctl1, tr)

/-- State of the unbounded `loop` under fuel: still running, or finished
with the value `try_run_loop` returned (or a panic). -/
inductive LoopState (B A R H : Type) where
  | running (ctl : Controller B A R H)
  | finished (out : Outcome A Unit)

/-- `fuel` iterations of the infinite `loop { ... }` of `try_run_loop`. -/
def Controller.iterateLoop {B A R H : Type} [DecidableEq B] [DecidableEq A] :
    Nat → Controller B A R H → LoopState B A R H × List (Event B A R)
  | 0, ctl => (.running ctl, [])
  | n + 1, ctl =>
    match ctl.loopIter with
    | (.ok _, ctl1, tr) =>
      let next := Controller.iterateLoop n ctl1
      (next.1, tr ++ next.2)
    | (.error e, _, tr) => (.finished (.error e), tr)
    | (.panic m, _, tr) => (.finished (.panic m), tr)

/-- `Controller::try_run_loop` under fuel: `on_ready` once, then the
unbounded loop. -/
def Controller.tryRunLoop {B A R H : Type} [DecidableEq B] [DecidableEq A]
    (fuel : Nat) (ctl : Controller B A R H) :
    LoopState B A R H × List (Event B A R) :=
  let step := ctl.himpl.onReady ctl.handler ctl.senders
  let ctl1 := { ctl with handler := step.2.1, senders := step.2.2 }
  match step.1 with
  | .error e => (.finished (.error e), [.onReadyCalled step.1])
  | .ok _ =>
    let next := Controller.iterateLoop fuel ctl1
    (next.1, .onReadyCalled step.1 :: next.2)

/-- `TryService::run_or_panic` (src/node.rs): both possible returns of
`try_run_loop` abort the process; the value here is the panic message built
from the service name. `errStr` is the `Display` of the error type. -/
def runOrPanic {A : Type} (serviceName : String) (errStr : EsbError A → String)
    (result : Except (EsbError A) Unit) : String :=
  match result with
  | .error err => serviceName ++ " run loop has failed with " ++ errStr err
  | .ok _ => serviceName ++ " has failed without reporting a error"

/-! Concrete instances used by the witnesses. -/

/-- Witness serializer: one byte per request code. -/
def serW : Nat → Data := fun r => [r]

/-- Witness bus-id display. -/
def bstrW : Nat → String := fun _ => "bus0"

/-- Witness endpoint with a configured router (address 5) and a transport
that accepts every send. -/
def epW : Endpoint Nat := { session := {}, router := some 5 }

/-- Witness endpoint whose transport rejects every send with code 3. -/
def epFailW : Endpoint Nat :=
  { session := { sendResult := fun _ _ _ _ => some 3 }, router := none }

/-- Witness registry with no entries. -/
def emptyRegistryW : EndpointList Nat Nat := ⟨[]⟩

/-- Witness handler capability record: identity 7, every callback succeeds
without touching its state or the registry. -/
def himplW : HandlerImpl Nat Nat Nat Unit :=
  { identity := fun _ => 7
    onReady := fun h s => (.ok (), h, s)
    handle := fun h s _ _ _ => (.ok (), h, s)
    handleErr := fun h s _ => (.ok (), h, s) }

/-- Witness decoder: a one-byte payload decodes to that byte. -/
def unmarshallW : Data → Except Nat Nat :=
  fun d => match d with
  | [n] => .ok n
  | _ => .error 1

/-- Witness controller with an empty registry. -/
def ctlW : Controller Nat Nat Nat Unit :=
  { senders := ⟨[]⟩
    himpl := himplW
    handler := ()
    unmarshall := unmarshallW
    serialize := serW
    bstr := bstrW }

/-- Witness bus configuration whose router equals the handler identity. -/
def cfgSelfW : BusConfig Nat :=
  { carrier := .socket {}, queued := true, router := some 7 }

/-- Expected controller after registering `cfgSelfW` as bus 0 on `ctlW`:
the self-router collapses to none. -/
def ctlW2 : Controller Nat Nat Nat Unit :=
  { ctlW with senders := ⟨[(0, ⟨{}, none⟩)]⟩ }

/-- Witness inbound frame addressed to another participant (9 ≠ identity 7). -/
def frameRelayW : RoutedFrame Nat := ⟨2, 9, [4]⟩

/-- Witness endpoint with one pending relay frame and no router. -/
def epInW : Endpoint Nat :=
  { session := { inbound := [frameRelayW] }, router := none }

/-- Witness controller with bus 0 holding one pending relay frame. -/
def ctlRunW : Controller Nat Nat Nat Unit :=
  { ctlW with senders := ⟨[(0, epInW)]⟩ }

/-- The tuple `receive_batch` is specified to produce for one ready bus:
the bus id, the source of the first pending frame, and its decoded
request; none when the bus is absent, not ready, or fails to
receive/decode. Used to state C6. -/
def Controller.expectedTuple {B A R H : Type} [DecidableEq B] [DecidableEq A]
    (ctl : Controller B A R H) (b : B) : Option (B × A × R) :=
  match ctl.senders.get? b with
  | none => none
  | some ep =>
    match ep.session.recvError with
    | some _ => none
    | none =>
      match ep.session.inbound with
      | [] => none
      | f :: _ =>
        match ctl.unmarshall f.msg with
        | .ok r => some (b, f.src, r)
        | .error _ => none

/-- Recognizer for `on_ready` call events. -/
def Event.isOnReady {B A R : Type} : Event B A R → Bool
  | .onReadyCalled _ => true
  | _ => false

/-- Recognizer for `handle_err` call events. -/
def Event.isHandleErr {B A R : Type} : Event B A R → Bool
  | .handleErrCalled _ _ => true
  | _ => false

/-- The guarantee the real `Handler::handle` enjoys through the public
`EndpointList` API (which exposes no removal): a callback never removes a
registry key. Stated as a property of the embedded handler record. -/
def HandlePreservesKeys {B A R H : Type} [DecidableEq B] [DecidableEq A]
    (himpl : HandlerImpl B A R H) : Prop :=
  ∀ (h : H) (s : EndpointList B A) (bus : B) (src : A) (req : R) (b : B),
    (s.get? b).isSome = true →
    (((himpl.handle h s bus src req).2.2).get? b).isSome = true

/-- Witness controller with two buses: bus 0 ready (one pending frame),
bus 1 idle. -/
def ctlPollW : Controller Nat Nat Nat Unit :=
  { ctlW with senders := ⟨[(0, epInW), (1, ⟨{}, none⟩)]⟩ }

/-- Expected state after `recv_poll` on `ctlPollW`: the pending frame of
bus 0 has been consumed, nothing else changed. -/
def ctlPollW2 : Controller Nat Nat Nat Unit :=
  { ctlW with senders :=
      ⟨[(0, ⟨{ inbound := [] }, none⟩), (1, ⟨{}, none⟩)]⟩ }

/-- C1: `Endpoint.send(source, dest, request)` computes the next hop by the
ordered rule (no router → dest; source equals the router → dest; otherwise
the router) and the transport send it issues carries the triple
(source, next-hop, dest) together with the serialized request. -/
theorem c1_send_next_hop {A R : Type} [DecidableEq A] (ep : Endpoint A)
    (serialize : R → Data) (source dest : A) (request : R)
    (hok : (ep.sendTo serialize source dest request).1 = .ok ()) :
    ((ep.sendTo serialize source dest request).2).session.outbound =
      ep.session.outbound ++
        [⟨source, specNextHop ep.router source dest, dest, serialize request⟩] ∧
    (ep.router = none → specNextHop ep.router source dest = dest) ∧
    (∀ r, ep.router = some r → source = r → specNextHop ep.router source dest = dest) ∧
    (∀ r, ep.router = some r → source ≠ r → specNextHop ep.router source dest = r) := by
  cases hr : ep.router with
  | none =>
    simp only [Endpoint.sendTo, Session.sendRoutedMessage, specNextHop, hr] at hok ⊢
    cases hres : ep.session.sendResult source dest dest (serialize request) with
    | none => simp_all
    | some e => simp_all
  | some r =>
    by_cases hsr : source = r
    · simp only [Endpoint.sendTo, Session.sendRoutedMessage, specNextHop, hr,
        if_pos hsr] at hok ⊢
      cases hres : ep.session.sendResult source dest dest (serialize request) with
      | none => simp_all
      | some e => simp_all
    · simp only [Endpoint.sendTo, Session.sendRoutedMessage, specNextHop, hr,
        if_neg hsr] at hok ⊢
      cases hres : ep.session.sendResult source r dest (serialize request) with
      | none => simp_all
      | some e => simp_all

/-- Witness for C1 at a router-configured endpoint with source 0 ≠ router 5. -/
theorem c1_send_next_hop_witness :
    ((epW.sendTo serW 0 1 9).2).session.outbound =
      epW.session.outbound ++
        [⟨0, specNextHop epW.router 0 1, 1, serW 9⟩] ∧
    (epW.router = none → specNextHop epW.router 0 1 = 1) ∧
    (∀ r, epW.router = some r → 0 = r → specNextHop epW.router 0 1 = 1) ∧
    (∀ r, epW.router = some r → 0 ≠ r → specNextHop epW.router 0 1 = r) :=
  c1_send_next_hop epW serW 0 1 9 rfl

/-- C8: a failing transport send makes `Endpoint.send` return
`Send(source, dest, transport error)` and leaves the endpoint (its session
state included) unchanged. -/
theorem c8_send_failure {A R : Type} [DecidableEq A] (ep : Endpoint A)
    (serialize : R → Data) (source dest : A) (request : R) (e : Nat)
    (hfail : ep.session.sendResult source (specNextHop ep.router source dest)
      dest (serialize request) = some e) :
    ep.sendTo serialize source dest request = (.error (.send source dest e), ep) := by
  obtain ⟨sess, rt⟩ := ep
  cases rt with
  | none =>
    simp only [specNextHop] at hfail
    simp [Endpoint.sendTo, Session.sendRoutedMessage, hfail]
  | some r =>
    by_cases hsr : source = r
    · simp only [specNextHop, if_pos hsr] at hfail
      simp [Endpoint.sendTo, Session.sendRoutedMessage, if_pos hsr, hfail]
    · simp only [specNextHop, if_neg hsr] at hfail
      simp [Endpoint.sendTo, Session.sendRoutedMessage, if_neg hsr, hfail]

/-- Witness for C8 at an endpoint whose transport rejects with code 3. -/
theorem c8_send_failure_witness :
    epFailW.sendTo serW 0 1 9 = (.error (.send 0 1 3), epFailW) :=
  c8_send_failure epFailW serW 0 1 9 3 rfl

/-- C5: `Registry.send` and `Registry.set_identity` on a bus id that is not
a key of the registry fail with `UnknownBusId` and return the registry
unchanged, with no transport action. -/
theorem c5_unknown_bus {B A R : Type} [DecidableEq B] [DecidableEq A]
    (l : EndpointList B A) (bstr : B → String) (serialize : R → Data)
    (bus : B) (source dest ident : A) (request : R)
    (habs : l.get? bus = none) :
    l.sendTo bstr serialize bus source dest request =
      (.error (.unknownBusId (bstr bus)), l) ∧
    l.setIdentity bstr bus ident = (.error (.unknownBusId (bstr bus)), l) := by
  constructor
  · simp [EndpointList.sendTo, habs]
  · simp [EndpointList.setIdentity, habs]

/-- Witness for C5 on the empty registry. -/
theorem c5_unknown_bus_witness :
    emptyRegistryW.sendTo bstrW serW 0 1 2 9 =
      (.error (.unknownBusId (bstrW 0)), emptyRegistryW) ∧
    emptyRegistryW.setIdentity bstrW 0 7 =
      (.error (.unknownBusId (bstrW 0)), emptyRegistryW) :=
  c5_unknown_bus emptyRegistryW bstrW serW 0 1 2 7 9 rfl

/-- C9: `Controller.send(bus_id, dest, request)` is exactly
`Registry.send(bus_id, identity, dest, request)` with the handler identity
at the time of the call as source, and it touches nothing else. -/
theorem c9_controller_send {B A R H : Type} [DecidableEq B] [DecidableEq A]
    (ctl : Controller B A R H) (bus : B) (dest : A) (request : R) :
    (ctl.sendTo bus dest request).1 =
      (ctl.senders.sendTo ctl.bstr ctl.serialize bus
        (ctl.himpl.identity ctl.handler) dest request).1 ∧
    (ctl.sendTo bus dest request).2.senders =
      (ctl.senders.sendTo ctl.bstr ctl.serialize bus
        (ctl.himpl.identity ctl.handler) dest request).2 ∧
    (ctl.sendTo bus dest request).2.handler = ctl.handler :=
  ⟨rfl, rfl, rfl⟩

/-- C7: `run_or_panic(service_name)` treats any return of the failable
loop, success or error, as fatal: both branches produce a panic message
that starts with the service name, with the exact texts of src/node.rs. -/
theorem c7_run_or_panic {A : Type} (serviceName : String)
    (errStr : EsbError A → String) (result : Except (EsbError A) Unit) :
    (∀ e, runOrPanic serviceName errStr (.error e) =
      serviceName ++ " run loop has failed with " ++ errStr e) ∧
    runOrPanic serviceName errStr (.ok ()) =
      serviceName ++ " has failed without reporting a error" ∧
    ∃ tail, runOrPanic serviceName errStr result = serviceName ++ tail := by
  refine ⟨fun e => rfl, rfl, ?_⟩
  cases result with
  | error e =>
    exact ⟨" run loop has failed with " ++ errStr e,
      (String.append_assoc serviceName " run loop has failed with " (errStr e))⟩
  | ok u => exact ⟨" has failed without reporting a error", rfl⟩

/-! Registry lookup lemmas. -/

theorem find?_setEntries_self {B A : Type} [DecidableEq B] (bus : B)
    (ep : Endpoint A) (xs : List (B × Endpoint A)) :
    (setEntries bus ep xs).find? (fun p => decide (p.1 = bus)) =
      (xs.find? (fun p => decide (p.1 = bus))).map (fun _ => (bus, ep)) := by
  induction xs with
  | nil => rfl
  | cons p rest ih =>
    by_cases h : p.1 = bus
    · simp [setEntries, h]
    · simp [setEntries, h, ih]

theorem find?_setEntries_ne {B A : Type} [DecidableEq B] (b bus : B)
    (ep : Endpoint A) (xs : List (B × Endpoint A)) (hne : b ≠ bus) :
    (setEntries bus ep xs).find? (fun p => decide (p.1 = b)) =
      xs.find? (fun p => decide (p.1 = b)) := by
  have hbusb : ¬ bus = b := fun hh => hne hh.symm
  induction xs with
  | nil => rfl
  | cons p rest ih =>
    by_cases h : p.1 = bus
    · have hb : ¬ p.1 = b := by
        intro hpb
        rw [hpb] at h
        exact hne h
      simp [setEntries, h, hb, hbusb, ih]
    · by_cases hb : p.1 = b
      · simp [setEntries, h, hb, hne]
      · simp [setEntries, h, hb, ih]

theorem get?_set_self {B A : Type} [DecidableEq B] (l : EndpointList B A)
    (bus : B) (ep : Endpoint A) :
    (l.set bus ep).get? bus = (l.get? bus).map (fun _ => ep) := by
  simp [EndpointList.get?, EndpointList.set, find?_setEntries_self,
    Option.map_map]
  rfl

theorem get?_set_ne {B A : Type} [DecidableEq B] (l : EndpointList B A)
    (b bus : B) (ep : Endpoint A) (hne : b ≠ bus) :
    (l.set bus ep).get? b = l.get? b := by
  simp [EndpointList.get?, EndpointList.set, find?_setEntries_ne b bus ep l.list hne]

theorem get?_set_isSome {B A : Type} [DecidableEq B] (l : EndpointList B A)
    (b bus : B) (ep : Endpoint A) :
    ((l.set bus ep).get? b).isSome = (l.get? b).isSome := by
  by_cases h : b = bus
  · subst h
    rw [get?_set_self]
    cases l.get? b <;> rfl
  · rw [get?_set_ne l b bus ep h]

theorem get?_insert_self {B A : Type} [DecidableEq B] (l : EndpointList B A)
    (bus : B) (ep : Endpoint A) :
    (l.insert bus ep).get? bus = some ep := by
  unfold EndpointList.insert
  by_cases h : (l.get? bus).isSome
  · rw [if_pos h, get?_set_self]
    obtain ⟨e0, he0⟩ := Option.isSome_iff_exists.mp h
    rw [he0]
    rfl
  · rw [if_neg h]
    have hnone : l.list.find? (fun p => decide (p.1 = bus)) = none := by
      unfold EndpointList.get? at h
      cases hf : l.list.find? (fun p => decide (p.1 = bus)) with
      | none => rfl
      | some p => rw [hf] at h; simp at h
    simp [EndpointList.get?, List.find?_append, hnone]

theorem get?_insert_ne {B A : Type} [DecidableEq B] (l : EndpointList B A)
    (b bus : B) (ep : Endpoint A) (hne : b ≠ bus) :
    (l.insert bus ep).get? b = l.get? b := by
  unfold EndpointList.insert
  by_cases h : (l.get? bus).isSome
  · rw [if_pos h]
    exact get?_set_ne l b bus ep hne
  · rw [if_neg h]
    simp only [EndpointList.get?, List.find?_append]
    have hbusb : ¬ bus = b := fun hh => hne hh.symm
    have hsingle : ([(bus, ep)].find? (fun p => decide (p.1 = b))) = none := by
      simp [List.find?, hbusb]
    cases hf : l.list.find? (fun p => decide (p.1 = b)) with
    | none => simp [hf, hsingle]
    | some p => simp [hf]

/-- C4: registering a bus whose config carries `Some r` as router stores no
router when `r` equals the handler identity at registration time (so every
subsequent next-hop computation on that bus yields the destination), stores
exactly `r` otherwise, and inserts the endpoint keyed by the bus id,
overwriting only that key. -/
theorem c4_add_service_bus {B A R H : Type} [DecidableEq B] [DecidableEq A]
    (ctl ctl' : Controller B A R H) (id : B) (config : BusConfig A) (r : A)
    (hr : config.router = some r)
    (hok : ctl.addServiceBus id config = .ok ctl') :
    ∃ ep : Endpoint A, ctl'.senders.get? id = some ep ∧
      (r = ctl.himpl.identity ctl.handler →
        ep.router = none ∧ ∀ s d : A, specNextHop ep.router s d = d) ∧
      (r ≠ ctl.himpl.identity ctl.handler → ep.router = some r) ∧
      (∀ b, b ≠ id → ctl'.senders.get? b = ctl.senders.get? b) := by
  unfold Controller.addServiceBus at hok
  cases hraw : resolveCarrier config.carrier (ctl.himpl.identity ctl.handler) with
  | error e => simp only [hraw] at hok; exact absurd hok (by simp)
  | ok newSession =>
    simp only [hraw] at hok
    cases hq : applyQueued config.queued newSession with
    | error e => simp only [hq] at hok; exact absurd hok (by simp)
    | ok sess =>
      simp only [hq, Except.ok.injEq] at hok
      subst hok
      refine ⟨⟨sess, effectiveRouter config.router (ctl.himpl.identity ctl.handler)⟩,
        ?_, ?_, ?_, ?_⟩
      · exact get?_insert_self ctl.senders id _
      · intro hid
        constructor
        · simp [effectiveRouter, hr, hid]
        · intro s d
          simp [effectiveRouter, hr, hid, specNextHop]
      · intro hid
        simp [effectiveRouter, hr, hid]
      · intro b hb
        exact get?_insert_ne ctl.senders b id _ hb

/-- Witness for C4: registering `cfgSelfW` (router 7 = identity 7) on the
empty-registry witness controller collapses the router to none. -/
theorem c4_add_service_bus_witness :
    ∃ ep : Endpoint Nat, ctlW2.senders.get? 0 = some ep ∧
      (7 = ctlW.himpl.identity ctlW.handler →
        ep.router = none ∧ ∀ s d : Nat, specNextHop ep.router s d = d) ∧
      (7 ≠ ctlW.himpl.identity ctlW.handler → ep.router = some 7) ∧
      (∀ b, b ≠ 0 → ctlW2.senders.get? b = ctlW.senders.get? b) :=
  c4_add_service_bus ctlW ctlW2 0 cfgSelfW 7 rfl (by rfl)

/-- C2: in one pass of `Controller::run`, a received and decoded frame
whose destination equals the handler identity produces exactly one
`handle` invocation (with that bus, source and request) and no re-send; a
frame whose destination differs produces zero `handle` invocations and one
re-send of the identical message (same bus, source, destination, request)
through the §4.1 registry routing; `run` is the fold of this per-bus step
over the polled buses. -/
theorem c2_run_dispatch {B A R H : Type} [DecidableEq B] [DecidableEq A]
    (ctl : Controller B A R H) (bus : B) (ep : Endpoint A)
    (frame : RoutedFrame A) (rest : List (RoutedFrame A)) (request : R)
    (hget : ctl.senders.get? bus = some ep)
    (hrecv : ep.session.recvError = none)
    (hin : ep.session.inbound = frame :: rest)
    (hdec : ctl.unmarshall frame.msg = .ok request) :
    (frame.dst = ctl.himpl.identity ctl.handler →
      ∃ res, (ctl.processBus bus).2.2 =
        [.handleCalled bus frame.src request res]) ∧
    (frame.dst ≠ ctl.himpl.identity ctl.handler →
      (ctl.processBus bus).2.2 = [.resent bus frame.src frame.dst request] ∧
      (ctl.processBus bus).2.1.handler = ctl.handler ∧
      (ctl.processBus bus).2.1.senders =
        ((ctl.senders.set bus
            { ep with session := { ep.session with inbound := rest } }).sendTo
          ctl.bstr ctl.serialize bus frame.src frame.dst request).2) ∧
    ctl.run = Controller.runBuses ctl ctl.poll := by
  have hrcv : ep.session.recvRoutedMessage =
      (.ok frame, { ep.session with inbound := rest }) := by
    simp [Session.recvRoutedMessage, hrecv, hin]
  refine ⟨?_, ?_, rfl⟩
  · intro hid
    simp only [Controller.processBus, hget, hrcv, hdec, if_pos hid]
    exact ⟨_, rfl⟩
  · intro hid
    simp only [Controller.processBus, hget, hrcv, hdec, if_neg hid]
    refine ⟨?_, ?_, ?_⟩ <;> trivial

/-- Witness for C2 at a forwarded frame (destination 9, identity 7). -/
theorem c2_run_dispatch_witness :
    (frameRelayW.dst = ctlRunW.himpl.identity ctlRunW.handler →
      ∃ res, (ctlRunW.processBus 0).2.2 =
        [.handleCalled 0 frameRelayW.src 4 res]) ∧
    (frameRelayW.dst ≠ ctlRunW.himpl.identity ctlRunW.handler →
      (ctlRunW.processBus 0).2.2 =
        [.resent 0 frameRelayW.src frameRelayW.dst 4] ∧
      (ctlRunW.processBus 0).2.1.handler = ctlRunW.handler ∧
      (ctlRunW.processBus 0).2.1.senders =
        ((ctlRunW.senders.set 0
            { epInW with session := { epInW.session with inbound := [] } }).sendTo
          ctlRunW.bstr ctlRunW.serialize 0 frameRelayW.src frameRelayW.dst 4).2) ∧
    ctlRunW.run = Controller.runBuses ctlRunW ctlRunW.poll :=
  c2_run_dispatch ctlRunW 0 epInW frameRelayW [] 4 rfl rfl rfl rfl

/-! Lemmas about receive passes. -/

theorem recvRouted_outbound {A : Type} (s : Session A) :
    (s.recvRoutedMessage).2.outbound = s.outbound := by
  cases h : s.recvError with
  | some e => simp [Session.recvRoutedMessage, h]
  | none => cases hi : s.inbound <;> simp [Session.recvRoutedMessage, h, hi]

theorem outboundMap_set {B A : Type} [DecidableEq B] (l : EndpointList B A)
    (bus : B) (ep ep' : Endpoint A) (hget : l.get? bus = some ep)
    (hout : ep'.session.outbound = ep.session.outbound) (b : B) :
    ((l.set bus ep').get? b).map (fun e => e.session.outbound) =
      (l.get? b).map (fun e => e.session.outbound) := by
  by_cases hb : b = bus
  · subst hb
    rw [get?_set_self, hget]
    simp [hout]
  · rw [get?_set_ne l b bus ep' hb]

theorem recvPollGo_handler {B A R H : Type} [DecidableEq B] [DecidableEq A]
    (buses : List B) :
    ∀ (ctl : Controller B A R H) (acc : List (B × A × R)),
      (Controller.recvPollGo ctl buses acc).2.handler = ctl.handler := by
  induction buses with
  | nil => intro ctl acc; rfl
  | cons bus rest ih =>
    intro ctl acc
    simp only [Controller.recvPollGo]
    cases hget : ctl.senders.get? bus with
    | none => rfl
    | some ep =>
      cases hr : (ep.session.recvRoutedMessage).1 with
      | error e => simp [hr]
      | ok frame =>
        cases hm : ctl.unmarshall frame.msg with
        | error e => simp [hr, hm]
        | ok r => simp [hr, hm, ih]

theorem recvPollGo_outbound {B A R H : Type} [DecidableEq B] [DecidableEq A]
    (buses : List B) :
    ∀ (ctl : Controller B A R H) (acc : List (B × A × R)) (b : B),
      ((Controller.recvPollGo ctl buses acc).2.senders.get? b).map
          (fun e => e.session.outbound) =
        (ctl.senders.get? b).map (fun e => e.session.outbound) := by
  induction buses with
  | nil => intro ctl acc b; rfl
  | cons bus rest ih =>
    intro ctl acc b
    simp only [Controller.recvPollGo]
    cases hget : ctl.senders.get? bus with
    | none => rfl
    | some ep =>
      have hset := fun b2 => outboundMap_set ctl.senders bus ep
        { ep with session := (ep.session.recvRoutedMessage).2 } hget
        (recvRouted_outbound ep.session) b2
      cases hr : (ep.session.recvRoutedMessage).1 with
      | error e => simpa [hr] using hset b
      | ok frame =>
        cases hm : ctl.unmarshall frame.msg with
        | error e => simpa [hr, hm] using hset b
        | ok r =>
          simp only [hr, hm]
          rw [ih]
          exact hset b

theorem expectedTuple_set_ne {B A R H : Type} [DecidableEq B] [DecidableEq A]
    (ctl : Controller B A R H) (bus : B) (ep' : Endpoint A) (b : B)
    (hne : b ≠ bus) :
    Controller.expectedTuple
        { ctl with senders := ctl.senders.set bus ep' } b =
      Controller.expectedTuple ctl b := by
  simp only [Controller.expectedTuple, get?_set_ne ctl.senders b bus ep' hne]

theorem recvPollGo_ok_tuples {B A R H : Type} [DecidableEq B] [DecidableEq A]
    (buses : List B) :
    ∀ (ctl : Controller B A R H) (acc tuples : List (B × A × R))
      (ctl' : Controller B A R H),
      buses.Nodup →
      Controller.recvPollGo ctl buses acc = (.ok tuples, ctl') →
      tuples.map some =
        acc.map some ++ buses.map (Controller.expectedTuple ctl) := by
  induction buses with
  | nil =>
    intro ctl acc tuples ctl' hnd h
    simp only [Controller.recvPollGo, Prod.mk.injEq, Outcome.ok.injEq] at h
    simp [h.1.symm]
  | cons bus rest ih =>
    intro ctl acc tuples ctl' hnd h
    simp only [Controller.recvPollGo] at h
    cases hget : ctl.senders.get? bus with
    | none => simp only [hget] at h; simp at h
    | some ep =>
      simp only [hget] at h
      cases hre : ep.session.recvError with
      | some e =>
        have hrcv : ep.session.recvRoutedMessage = (.error e, ep.session) := by
          simp [Session.recvRoutedMessage, hre]
        simp only [hrcv] at h
        simp at h
      | none =>
        cases hin : ep.session.inbound with
        | nil =>
          have hrcv : ep.session.recvRoutedMessage = (.error 0, ep.session) := by
            simp [Session.recvRoutedMessage, hre, hin]
          simp only [hrcv] at h
          simp at h
        | cons f tl =>
          have hrcv : ep.session.recvRoutedMessage =
              (.ok f, { ep.session with inbound := tl }) := by
            simp [Session.recvRoutedMessage, hre, hin]
          simp only [hrcv] at h
          cases hm : ctl.unmarshall f.msg with
          | error e => simp only [hm] at h; simp at h
          | ok r =>
            simp only [hm] at h
            have hnodup := List.nodup_cons.mp hnd
            have hrec := ih _ (acc ++ [(bus, f.src, r)]) tuples ctl' hnodup.2 h
            have hmapeq : rest.map (Controller.expectedTuple { ctl with senders := ctl.senders.set bus { ep with session := { ep.session with inbound := tl } } }) = rest.map (Controller.expectedTuple ctl) := by
              refine List.map_congr_left ?_
              intro b2 hb2
              have hb2ne : b2 ≠ bus := fun hh => hnodup.1 (hh ▸ hb2)
              exact expectedTuple_set_ne ctl bus _ b2 hb2ne
            have hexp : Controller.expectedTuple ctl bus = some (bus, f.src, r) := by
              simp [Controller.expectedTuple, hget, hre, hin, hm]
            rw [hrec, hmapeq] at *
            simp [hexp]

theorem find?_key_of_mem_nodup {B A : Type} [DecidableEq B]
    (xs : List (B × Endpoint A)) (b : B) (ep : Endpoint A)
    (hnd : (xs.map Prod.fst).Nodup) (hmem : (b, ep) ∈ xs) :
    xs.find? (fun p => decide (p.1 = b)) = some (b, ep) := by
  induction xs with
  | nil => cases hmem
  | cons p rest ih =>
    rcases List.mem_cons.mp hmem with heq | hmem2
    · subst heq
      simp [List.find?]
    · have hnd2 := List.nodup_cons.mp hnd
      have hb : b ∈ rest.map Prod.fst :=
        List.mem_map.mpr ⟨(b, ep), hmem2, rfl⟩
      have hp1 : ¬ p.1 = b := fun hh => hnd2.1 (hh ▸ hb)
      simp only [List.find?, hp1, decide_eq_false hp1]
      exact ih hnd2.2 hmem2

theorem mem_of_get?_some {B A : Type} [DecidableEq B] (l : EndpointList B A)
    (b : B) (ep : Endpoint A) (hget : l.get? b = some ep) :
    (b, ep) ∈ l.list := by
  unfold EndpointList.get? at hget
  cases hf : l.list.find? (fun p => decide (p.1 = b)) with
  | none => rw [hf] at hget; cases hget
  | some q =>
    rw [hf] at hget
    have hq1 : q.1 = b := by
      have := List.find?_some hf
      simpa using this
    have hq2 : q.2 = ep := by simpa using hget
    have hqmem := List.mem_of_find?_eq_some hf
    have : q = (b, ep) := Prod.ext hq1 hq2
    exact this ▸ hqmem

theorem mem_poll_iff {B A R H : Type} [DecidableEq B] [DecidableEq A]
    (ctl : Controller B A R H)
    (hnd : (ctl.senders.list.map Prod.fst).Nodup) (b : B) :
    b ∈ ctl.poll ↔
      ∃ ep, ctl.senders.get? b = some ep ∧ ep.session.inbound ≠ [] := by
  unfold Controller.poll
  constructor
  · intro hb
    rcases List.mem_map.mp hb with ⟨p, hpmem, hpb⟩
    have hpf := List.mem_filter.mp hpmem
    refine ⟨p.2, ?_, ?_⟩
    · have hmem : (b, p.2) ∈ ctl.senders.list := by
        have : p = (b, p.2) := Prod.ext hpb rfl
        exact this ▸ hpf.1
      unfold EndpointList.get?
      rw [find?_key_of_mem_nodup ctl.senders.list b p.2 hnd hmem]
      rfl
    · have := hpf.2
      simpa using this
  · rintro ⟨ep, hget, hne⟩
    have hmem := mem_of_get?_some ctl.senders b ep hget
    refine List.mem_map.mpr ⟨(b, ep), List.mem_filter.mpr ⟨hmem, ?_⟩, rfl⟩
    simpa using hne

theorem poll_nodup {B A R H : Type} [DecidableEq B] [DecidableEq A]
    (ctl : Controller B A R H)
    (hnd : (ctl.senders.list.map Prod.fst).Nodup) : ctl.poll.Nodup := by
  unfold Controller.poll
  exact List.Nodup.sublist
    ((List.filter_sublist ctl.senders.list).map Prod.fst) hnd

/-- C6: on a duplicate-free registry, a successful `recv_poll` returns
exactly one (bus, source, decoded request) tuple per polled bus, in poll
order; the polled buses are exactly those with pending data; and the pass
performs no dispatch (handler state untouched) and no transport send
(every outbound log unchanged). -/
theorem c6_recv_poll {B A R H : Type} [DecidableEq B] [DecidableEq A]
    (ctl ctl' : Controller B A R H) (tuples : List (B × A × R))
    (hnd : (ctl.senders.list.map Prod.fst).Nodup)
    (hok : ctl.recvPoll = (.ok tuples, ctl')) :
    tuples.map some = ctl.poll.map (Controller.expectedTuple ctl) ∧
    (∀ b, b ∈ ctl.poll ↔
      ∃ ep, ctl.senders.get? b = some ep ∧ ep.session.inbound ≠ []) ∧
    ctl'.handler = ctl.handler ∧
    (∀ b, (ctl'.senders.get? b).map (fun e => e.session.outbound) =
      (ctl.senders.get? b).map (fun e => e.session.outbound)) := by
  refine ⟨?_, fun b => mem_poll_iff ctl hnd b, ?_, ?_⟩
  · have := recvPollGo_ok_tuples ctl.poll ctl [] tuples ctl'
      (poll_nodup ctl hnd) hok
    simpa using this
  · have hh := recvPollGo_handler ctl.poll ctl ([] : List (B × A × R))
    rw [show Controller.recvPollGo ctl ctl.poll ([] : List (B × A × R)) =
      ctl.recvPoll from rfl, hok] at hh
    exact hh
  · intro b
    have hh := recvPollGo_outbound ctl.poll ctl ([] : List (B × A × R)) b
    rw [show Controller.recvPollGo ctl ctl.poll ([] : List (B × A × R)) =
      ctl.recvPoll from rfl, hok] at hh
    exact hh

/-- Witness for C6: two buses, only bus 0 ready; `recv_poll` returns the
single tuple for bus 0. -/
theorem c6_recv_poll_witness :
    ([(0, 2, 4)] : List (Nat × Nat × Nat)).map some =
      ctlPollW.poll.map (Controller.expectedTuple ctlPollW) ∧
    (∀ b, b ∈ ctlPollW.poll ↔
      ∃ ep, ctlPollW.senders.get? b = some ep ∧ ep.session.inbound ≠ []) ∧
    ctlPollW2.handler = ctlPollW.handler ∧
    (∀ b, (ctlPollW2.senders.get? b).map (fun e => e.session.outbound) =
      (ctlPollW.senders.get? b).map (fun e => e.session.outbound)) :=
  c6_recv_poll ctlPollW ctlPollW2 [(0, 2, 4)] (by decide) (by rfl)

/-! Key-presence lemmas: the `expect("must exist, just indexed")` calls. -/

theorem find?_isSome_of_mem_key {B A : Type} [DecidableEq B]
    (xs : List (B × Endpoint A)) (b : B) (ep : Endpoint A)
    (hmem : (b, ep) ∈ xs) :
    (xs.find? (fun p => decide (p.1 = b))).isSome = true := by
  induction xs with
  | nil => cases hmem
  | cons p rest ih =>
    rcases List.mem_cons.mp hmem with heq | hmem2
    · subst heq
      simp [List.find?]
    · by_cases hp : p.1 = b
      · simp [List.find?, hp]
      · simp only [List.find?, decide_eq_false hp]
        exact ih hmem2

theorem get?_isSome_of_mem_key {B A : Type} [DecidableEq B]
    (l : EndpointList B A) (b : B) (ep : Endpoint A)
    (hmem : (b, ep) ∈ l.list) : (l.get? b).isSome = true := by
  unfold EndpointList.get?
  cases hf : l.list.find? (fun p => decide (p.1 = b)) with
  | none =>
    have := find?_isSome_of_mem_key l.list b ep hmem
    rw [hf] at this
    cases this
  | some q => rfl

theorem poll_mem_isSome {B A R H : Type} [DecidableEq B] [DecidableEq A]
    (ctl : Controller B A R H) (b : B) (hb : b ∈ ctl.poll) :
    (ctl.senders.get? b).isSome = true := by
  unfold Controller.poll at hb
  rcases List.mem_map.mp hb with ⟨p, hpmem, hpb⟩
  have hmem : (b, p.2) ∈ ctl.senders.list := by
    have hp : p = (b, p.2) := Prod.ext hpb rfl
    exact hp ▸ (List.mem_filter.mp hpmem).1
  exact get?_isSome_of_mem_key ctl.senders b p.2 hmem

theorem sendTo_isSome {B A R : Type} [DecidableEq B] [DecidableEq A]
    (l : EndpointList B A) (bstr : B → String) (ser : R → Data) (bus : B)
    (src dst : A) (req : R) (b : B) :
    (((l.sendTo bstr ser bus src dst req).2).get? b).isSome =
      (l.get? b).isSome := by
  unfold EndpointList.sendTo
  cases hg : l.get? bus with
  | none => rfl
  | some ep => exact get?_set_isSome l b bus _

theorem processBus_himpl {B A R H : Type} [DecidableEq B] [DecidableEq A]
    (ctl : Controller B A R H) (bus : B) :
    (ctl.processBus bus).2.1.himpl = ctl.himpl := by
  cases hg : ctl.senders.get? bus with
  | none => simp [Controller.processBus, hg]
  | some ep =>
    cases hr : (ep.session.recvRoutedMessage).1 with
    | error e => simp [Controller.processBus, hg, hr]
    | ok frame =>
      cases hm : ctl.unmarshall frame.msg with
      | error e => simp [Controller.processBus, hg, hr, hm]
      | ok r =>
        by_cases hid : frame.dst = ctl.himpl.identity ctl.handler
        · simp [Controller.processBus, hg, hr, hm, hid]
        · simp [Controller.processBus, hg, hr, hm, hid]

theorem processBus_isSome {B A R H : Type} [DecidableEq B] [DecidableEq A]
    (ctl : Controller B A R H) (bus : B)
    (hpres : HandlePreservesKeys ctl.himpl) (b : B)
    (hb : (ctl.senders.get? b).isSome = true) :
    ((ctl.processBus bus).2.1.senders.get? b).isSome = true := by
  have hset : ∀ (ep2 : Endpoint A) (b2 : B),
      ((ctl.senders.set bus ep2).get? b2).isSome = (ctl.senders.get? b2).isSome :=
    fun ep2 b2 => get?_set_isSome ctl.senders b2 bus ep2
  cases hg : ctl.senders.get? bus with
  | none => simpa [Controller.processBus, hg] using hb
  | some ep =>
    cases hr : (ep.session.recvRoutedMessage).1 with
    | error e => simpa [Controller.processBus, hg, hr, hset] using hb
    | ok frame =>
      cases hm : ctl.unmarshall frame.msg with
      | error e => simpa [Controller.processBus, hg, hr, hm, hset] using hb
      | ok r =>
        by_cases hid : frame.dst = ctl.himpl.identity ctl.handler
        · simp only [Controller.processBus, hg, hr, hm, hid, if_pos rfl]
          exact hpres _ _ _ _ _ b (by rw [hset]; exact hb)
        · simp only [Controller.processBus, hg, hr, hm, if_neg hid]
          rw [sendTo_isSome, hset]
          exact hb

theorem processBus_no_panic {B A R H : Type} [DecidableEq B] [DecidableEq A]
    (ctl : Controller B A R H) (bus : B)
    (hbus : (ctl.senders.get? bus).isSome = true) (m : String) :
    (ctl.processBus bus).1 ≠ .panic m := by
  cases hg : ctl.senders.get? bus with
  | none => rw [hg] at hbus; cases hbus
  | some ep =>
    cases hr : (ep.session.recvRoutedMessage).1 with
    | error e => simp [Controller.processBus, hg, hr]
    | ok frame =>
      cases hm : ctl.unmarshall frame.msg with
      | error e => simp [Controller.processBus, hg, hr, hm]
      | ok r =>
        by_cases hid : frame.dst = ctl.himpl.identity ctl.handler
        · simp only [Controller.processBus, hg, hr, hm, hid, if_pos rfl]
          cases (ctl.himpl.handle ctl.handler _ bus frame.src r).1 <;> simp
        · simp only [Controller.processBus, hg, hr, hm, if_neg hid]
          cases ((ctl.senders.set bus _).sendTo ctl.bstr ctl.serialize bus
            frame.src frame.dst r).1 <;> simp

theorem runBuses_no_panic {B A R H : Type} [DecidableEq B] [DecidableEq A]
    (buses : List B) :
    ∀ ctl : Controller B A R H, HandlePreservesKeys ctl.himpl →
      (∀ b ∈ buses, (ctl.senders.get? b).isSome = true) →
      ∀ m, (Controller.runBuses ctl buses).1 ≠ .panic m := by
  induction buses with
  | nil =>
    intro ctl _ _ m
    simp [Controller.runBuses]
  | cons bus rest ih =>
    intro ctl hpres hall m
    simp only [Controller.runBuses]
    rcases hout : ctl.processBus bus with ⟨out, ctl1, tr⟩
    have hhim : ctl1.himpl = ctl.himpl := by
      have := processBus_himpl ctl bus
      rw [hout] at this
      exact this
    cases out with
    | ok u =>
      have hrest : ∀ b ∈ rest, (ctl1.senders.get? b).isSome = true := by
        intro b hb
        have := processBus_isSome ctl bus hpres b (hall b (List.mem_cons_of_mem bus hb))
        rw [hout] at this
        exact this
      have := ih ctl1 (hhim ▸ hpres) hrest m
      simpa using this
    | error e => simp
    | panic m2 =>
      have := processBus_no_panic ctl bus (hall bus (List.mem_cons_self bus rest)) m2
      rw [hout] at this
      exact absurd rfl this

theorem run_no_panic {B A R H : Type} [DecidableEq B] [DecidableEq A]
    (ctl : Controller B A R H) (hpres : HandlePreservesKeys ctl.himpl)
    (m : String) : (ctl.run).1 ≠ .panic m :=
  runBuses_no_panic ctl.poll ctl hpres
    (fun b hb => poll_mem_isSome ctl b hb) m

theorem recvPollGo_no_panic {B A R H : Type} [DecidableEq B] [DecidableEq A]
    (buses : List B) :
    ∀ (ctl : Controller B A R H) (acc : List (B × A × R)),
      (∀ b ∈ buses, (ctl.senders.get? b).isSome = true) →
      ∀ m, (Controller.recvPollGo ctl buses acc).1 ≠ .panic m := by
  induction buses with
  | nil =>
    intro ctl acc _ m
    simp [Controller.recvPollGo]
  | cons bus rest ih =>
    intro ctl acc hall m
    cases hg : ctl.senders.get? bus with
    | none =>
      have := hall bus (List.mem_cons_self bus rest)
      rw [hg] at this
      cases this
    | some ep =>
      cases hr : (ep.session.recvRoutedMessage).1 with
      | error e => simp [Controller.recvPollGo, hg, hr]
      | ok frame =>
        cases hm : ctl.unmarshall frame.msg with
        | error e => simp [Controller.recvPollGo, hg, hr, hm]
        | ok r =>
          simp only [Controller.recvPollGo, hg, hr, hm]
          apply ih
          intro b hb
          rw [get?_set_isSome]
          exact hall b (List.mem_cons_of_mem bus hb)

/-- C10: every bus id returned by `poll` is a present registry key, so the
lookup behind `expect("must exist, just indexed")` succeeds: `recv_poll`
can never hit the panic branch, and `run` cannot either as long as the
handler callback cannot remove registry keys (which the public
`EndpointList` API guarantees for the real handler). -/
theorem c10_poll_keys {B A R H : Type} [DecidableEq B] [DecidableEq A]
    (ctl : Controller B A R H) :
    (∀ b ∈ ctl.poll, (ctl.senders.get? b).isSome = true) ∧
    (∀ m, (ctl.recvPoll).1 ≠ .panic m) ∧
    (HandlePreservesKeys ctl.himpl → ∀ m, (ctl.run).1 ≠ .panic m) := by
  refine ⟨fun b hb => poll_mem_isSome ctl b hb, ?_, fun hpres m => run_no_panic ctl hpres m⟩
  intro m
  exact recvPollGo_no_panic ctl.poll ctl []
    (fun b hb => poll_mem_isSome ctl b hb) m

/-- Witness for C10 at the one-ready-bus witness controller. -/
theorem c10_poll_keys_witness :
    (∀ b ∈ ctlRunW.poll, (ctlRunW.senders.get? b).isSome = true) ∧
    (∀ m, (ctlRunW.recvPoll).1 ≠ .panic m) ∧
    (HandlePreservesKeys ctlRunW.himpl → ∀ m, (ctlRunW.run).1 ≠ .panic m) :=
  c10_poll_keys ctlRunW

/-! Trace lemmas for the failable loop. -/

theorem getLast?_cons_of_ne_nil {α : Type} (a : α) (l : List α) (h : l ≠ []) :
    (a :: l).getLast? = l.getLast? := by
  cases l with
  | nil => exact absurd rfl h
  | cons b t => exact List.getLast?_cons_cons

theorem getLast?_append_right {α : Type} (l1 l2 : List α) (h : l2 ≠ []) :
    (l1 ++ l2).getLast? = l2.getLast? := by
  induction l1 with
  | nil => rfl
  | cons a t ih =>
    rw [List.cons_append, getLast?_cons_of_ne_nil a (t ++ l2) (by simp [h]), ih]

theorem processBus_trace_clean {B A R H : Type} [DecidableEq B] [DecidableEq A]
    (ctl : Controller B A R H) (bus : B) :
    ((ctl.processBus bus).2.2).countP Event.isOnReady = 0 ∧
    ((ctl.processBus bus).2.2).countP Event.isHandleErr = 0 := by
  cases hg : ctl.senders.get? bus with
  | none => simp [Controller.processBus, hg]
  | some ep =>
    cases hr : (ep.session.recvRoutedMessage).1 with
    | error e => simp [Controller.processBus, hg, hr]
    | ok frame =>
      cases hm : ctl.unmarshall frame.msg with
      | error e => simp [Controller.processBus, hg, hr, hm]
      | ok r =>
        by_cases hid : frame.dst = ctl.himpl.identity ctl.handler
        · simp [Controller.processBus, hg, hr, hm, hid,
            Event.isOnReady, Event.isHandleErr]
        · simp [Controller.processBus, hg, hr, hm, hid,
            Event.isOnReady, Event.isHandleErr]

theorem runBuses_trace_clean {B A R H : Type} [DecidableEq B] [DecidableEq A]
    (buses : List B) :
    ∀ ctl : Controller B A R H,
      ((Controller.runBuses ctl buses).2.2).countP Event.isOnReady = 0 ∧
      ((Controller.runBuses ctl buses).2.2).countP Event.isHandleErr = 0 := by
  induction buses with
  | nil => intro ctl; simp [Controller.runBuses]
  | cons bus rest ih =>
    intro ctl
    rcases hout : ctl.processBus bus with ⟨out, ctl1, tr⟩
    have htr1 : tr.countP Event.isOnReady = 0 := by
      have h0 := (processBus_trace_clean ctl bus).1
      rw [hout] at h0
      exact h0
    have htr2 : tr.countP Event.isHandleErr = 0 := by
      have h0 := (processBus_trace_clean ctl bus).2
      rw [hout] at h0
      exact h0
    cases out with
    | ok u =>
      simp [Controller.runBuses, hout, List.countP_append, htr1, htr2,
        (ih ctl1).1, (ih ctl1).2]
    | error e => simp [Controller.runBuses, hout, htr1, htr2]
    | panic m => simp [Controller.runBuses, hout, htr1, htr2]

theorem run_trace_clean {B A R H : Type} [DecidableEq B] [DecidableEq A]
    (ctl : Controller B A R H) :
    ((ctl.run).2.2).countP Event.isOnReady = 0 ∧
    ((ctl.run).2.2).countP Event.isHandleErr = 0 :=
  runBuses_trace_clean ctl.poll ctl

theorem runBuses_himpl {B A R H : Type} [DecidableEq B] [DecidableEq A]
    (buses : List B) :
    ∀ ctl : Controller B A R H,
      (Controller.runBuses ctl buses).2.1.himpl = ctl.himpl := by
  induction buses with
  | nil => intro ctl; rfl
  | cons bus rest ih =>
    intro ctl
    rcases hout : ctl.processBus bus with ⟨out, ctl1, tr⟩
    have hhim : ctl1.himpl = ctl.himpl := by
      have h0 := processBus_himpl ctl bus
      rw [hout] at h0
      exact h0
    cases out with
    | ok u => simp [Controller.runBuses, hout, ih ctl1, hhim]
    | error e => simp [Controller.runBuses, hout, hhim]
    | panic m => simp [Controller.runBuses, hout, hhim]

theorem run_himpl {B A R H : Type} [DecidableEq B] [DecidableEq A]
    (ctl : Controller B A R H) : (ctl.run).2.1.himpl = ctl.himpl :=
  runBuses_himpl ctl.poll ctl

theorem loopIter_himpl {B A R H : Type} [DecidableEq B] [DecidableEq A]
    (ctl : Controller B A R H) : (ctl.loopIter).2.1.himpl = ctl.himpl := by
  rcases hrun : ctl.run with ⟨out, ctl1, tr⟩
  have hhim : ctl1.himpl = ctl.himpl := by
    have h0 := run_himpl ctl
    rw [hrun] at h0
    exact h0
  cases out with
  | ok u => simp [Controller.loopIter, hrun, hhim]
  | error e => simp [Controller.loopIter, hrun, hhim]
  | panic m => simp [Controller.loopIter, hrun, hhim]

theorem loopIter_no_onReady {B A R H : Type} [DecidableEq B] [DecidableEq A]
    (ctl : Controller B A R H) :
    ((ctl.loopIter).2.2).countP Event.isOnReady = 0 := by
  rcases hrun : ctl.run with ⟨out, ctl1, tr⟩
  have htr : tr.countP Event.isOnReady = 0 := by
    have h0 := (run_trace_clean ctl).1
    rw [hrun] at h0
    exact h0
  cases out with
  | ok u => simpa [Controller.loopIter, hrun] using htr
  | error e =>
    simp [Controller.loopIter, hrun, List.countP_append, htr, Event.isOnReady]
  | panic m => simpa [Controller.loopIter, hrun] using htr

theorem loopIter_no_panic {B A R H : Type} [DecidableEq B] [DecidableEq A]
    (ctl : Controller B A R H) (hpres : HandlePreservesKeys ctl.himpl)
    (m : String) : (ctl.loopIter).1 ≠ .panic m := by
  rcases hrun : ctl.run with ⟨out, ctl1, tr⟩
  cases out with
  | ok u => simp [Controller.loopIter, hrun]
  | error e =>
    simp only [Controller.loopIter, hrun]
    cases (ctl1.himpl.handleErr ctl1.handler ctl1.senders e).1 <;> simp
  | panic m2 =>
    have := run_no_panic ctl hpres m2
    rw [hrun] at this
    exact absurd rfl this

theorem loopIter_error_last {B A R H : Type} [DecidableEq B] [DecidableEq A]
    (ctl : Controller B A R H) (e : EsbError A)
    (h : (ctl.loopIter).1 = .error e) :
    ∃ err, ((ctl.loopIter).2.2).getLast? =
      some (.handleErrCalled err (.error e)) := by
  rcases hrun : ctl.run with ⟨out, ctl1, tr⟩
  cases out with
  | ok u => rw [Controller.loopIter, hrun] at h; simp at h
  | error err =>
    refine ⟨err, ?_⟩
    simp only [Controller.loopIter, hrun] at h ⊢
    cases hhe : (ctl1.himpl.handleErr ctl1.handler ctl1.senders err).1 with
    | ok u => rw [hhe] at h; simp at h
    | error e2 =>
      rw [hhe] at h
      simp only at h
      have he2 : e2 = e := by
        simpa using h
      subst he2
      exact getLast?_append_right tr _ (by simp)
  | panic m => rw [Controller.loopIter, hrun] at h; simp at h

theorem iterateLoop_not_ok {B A R H : Type} [DecidableEq B] [DecidableEq A]
    (n : Nat) :
    ∀ ctl : Controller B A R H,
      (Controller.iterateLoop n ctl).1 ≠ .finished (.ok ()) := by
  induction n with
  | zero => intro ctl; simp [Controller.iterateLoop]
  | succ n ih =>
    intro ctl
    rcases hit : ctl.loopIter with ⟨out, ctl1, tr⟩
    cases out with
    | ok u => simpa [Controller.iterateLoop, hit] using ih ctl1
    | error e => simp [Controller.iterateLoop, hit]
    | panic m => simp [Controller.iterateLoop, hit]

theorem iterateLoop_no_onReady {B A R H : Type} [DecidableEq B] [DecidableEq A]
    (n : Nat) :
    ∀ ctl : Controller B A R H,
      ((Controller.iterateLoop n ctl).2).countP Event.isOnReady = 0 := by
  induction n with
  | zero => intro ctl; rfl
  | succ n ih =>
    intro ctl
    rcases hit : ctl.loopIter with ⟨out, ctl1, tr⟩
    have htr : tr.countP Event.isOnReady = 0 := by
      have h0 := loopIter_no_onReady ctl
      rw [hit] at h0
      exact h0
    cases out with
    | ok u => simp [Controller.iterateLoop, hit, List.countP_append, htr, ih ctl1]
    | error e => simpa [Controller.iterateLoop, hit] using htr
    | panic m => simpa [Controller.iterateLoop, hit] using htr

theorem iterateLoop_finished {B A R H : Type} [DecidableEq B] [DecidableEq A]
    (n : Nat) :
    ∀ (ctl : Controller B A R H) (out : Outcome A Unit) (tr : List (Event B A R)),
      HandlePreservesKeys ctl.himpl →
      Controller.iterateLoop n ctl = (.finished out, tr) →
      ∃ e err, out = .error e ∧
        tr.getLast? = some (.handleErrCalled err (.error e)) := by
  induction n with
  | zero =>
    intro ctl out tr _ h
    rw [Controller.iterateLoop] at h
    simp at h
  | succ n ih =>
    intro ctl out tr hpres h
    rcases hit : ctl.loopIter with ⟨out1, ctl1, tr1⟩
    have hhim : ctl1.himpl = ctl.himpl := by
      have h0 := loopIter_himpl ctl
      rw [hit] at h0
      exact h0
    cases out1 with
    | ok u =>
      simp only [Controller.iterateLoop, hit] at h
      rcases hrec : Controller.iterateLoop n ctl1 with ⟨st2, tr2⟩
      rw [hrec] at h
      simp only [Prod.mk.injEq] at h
      have hst : st2 = LoopState.finished out := h.1
      have htr : tr1 ++ tr2 = tr := h.2
      obtain ⟨e, err, hout, hlast⟩ := ih ctl1 out tr2 (hhim ▸ hpres)
        (by rw [hrec, hst])
      refine ⟨e, err, hout, ?_⟩
      have hne : tr2 ≠ [] := by
        intro hnil
        rw [hnil] at hlast
        cases hlast
      rw [← htr, getLast?_append_right tr1 tr2 hne]
      exact hlast
    | error e =>
      simp only [Controller.iterateLoop, hit, Prod.mk.injEq,
        LoopState.finished.injEq] at h
      have he : Outcome.error e = out := h.1
      have htr : tr1 = tr := h.2
      have hl := loopIter_error_last ctl e (by rw [hit])
      obtain ⟨err, hlast⟩ := hl
      have hlast2 : tr1.getLast? = some (Event.handleErrCalled err (Except.error e)) := by
        have h0 := hlast
        rw [hit] at h0
        exact h0
      exact ⟨e, err, he.symm, htr ▸ hlast2⟩
    | panic m =>
      have := loopIter_no_panic ctl hpres m
      rw [hit] at this
      exact absurd rfl this

/-- C3: the failable loop calls `on_ready` exactly once, as the very first
event, then repeats `run()`: a `run` error is passed to `handle_err`
exactly once (run itself emits no `handle_err` events and a non-failing
iteration emits none either); a non-failing `handle_err` lets the loop
continue for another arbitrary number of iterations; the loop never
finishes with success; and (as long as the handler cannot remove registry
keys) it finishes only when `handle_err` — or the initial `on_ready` —
itself returns an error. -/
theorem c3_try_run_loop {B A R H : Type} [DecidableEq B] [DecidableEq A]
    (fuel : Nat) (ctl : Controller B A R H) :
    ((ctl.tryRunLoop fuel).2).head? =
      some (.onReadyCalled (ctl.himpl.onReady ctl.handler ctl.senders).1) ∧
    ((ctl.tryRunLoop fuel).2).countP Event.isOnReady = 1 ∧
    (∀ (err : EsbError A) (ctl1 : Controller B A R H) (tr : List (Event B A R)),
      ctl.run = (.error err, ctl1, tr) →
      tr.countP Event.isHandleErr = 0 ∧
      (ctl.loopIter).2.2 = tr ++
        [.handleErrCalled err
          (ctl1.himpl.handleErr ctl1.handler ctl1.senders err).1]) ∧
    (∀ (u : Unit) (ctl1 : Controller B A R H) (tr : List (Event B A R)),
      ctl.run = (.ok u, ctl1, tr) →
      ((ctl.loopIter).2.2).countP Event.isHandleErr = 0) ∧
    (∀ (n : Nat) (ctl1 : Controller B A R H) (tr1 : List (Event B A R)),
      ctl.loopIter = (.ok (), ctl1, tr1) →
      Controller.iterateLoop (n + 1) ctl =
        ((Controller.iterateLoop n ctl1).1,
          tr1 ++ (Controller.iterateLoop n ctl1).2)) ∧
    (ctl.tryRunLoop fuel).1 ≠ .finished (.ok ()) ∧
    (HandlePreservesKeys ctl.himpl →
      ∀ (out : Outcome A Unit) (tr : List (Event B A R)),
        ctl.tryRunLoop fuel = (.finished out, tr) →
        ∃ e, out = .error e ∧
          ((∃ err, tr.getLast? = some (.handleErrCalled err (.error e))) ∨
            tr = [.onReadyCalled (.error e)])) := by
  refine ⟨?_, ?_, ?_, ?_, ?_, ?_, ?_⟩
  · cases hor : (ctl.himpl.onReady ctl.handler ctl.senders).1 with
    | error e => simp [Controller.tryRunLoop, hor]
    | ok u => simp [Controller.tryRunLoop, hor]
  · cases hor : (ctl.himpl.onReady ctl.handler ctl.senders).1 with
    | error e => simp [Controller.tryRunLoop, hor, Event.isOnReady]
    | ok u =>
      simp [Controller.tryRunLoop, hor, Event.isOnReady,
        iterateLoop_no_onReady fuel]
  · intro err ctl1 tr hrun
    constructor
    · have h0 := (run_trace_clean ctl).2
      rw [hrun] at h0
      exact h0
    · simp only [Controller.loopIter, hrun]
  · intro u ctl1 tr hrun
    have h0 := (run_trace_clean ctl).2
    rw [hrun] at h0
    simpa [Controller.loopIter, hrun] using h0
  · intro n ctl1 tr1 hli
    simp only [Controller.iterateLoop, hli]
  · cases hor : (ctl.himpl.onReady ctl.handler ctl.senders).1 with
    | error e => simp [Controller.tryRunLoop, hor]
    | ok u =>
      simp only [Controller.tryRunLoop, hor]
      exact iterateLoop_not_ok fuel _
  · intro hpres out tr h
    cases hor : (ctl.himpl.onReady ctl.handler ctl.senders).1 with
    | error e =>
      simp only [Controller.tryRunLoop, hor, Prod.mk.injEq,
        LoopState.finished.injEq] at h
      refine ⟨e, h.1.symm, Or.inr ?_⟩
      exact h.2.symm
    | ok u =>
      simp only [Controller.tryRunLoop, hor] at h
      rcases hrec : Controller.iterateLoop fuel { ctl with handler := (ctl.himpl.onReady ctl.handler ctl.senders).2.1, senders := (ctl.himpl.onReady ctl.handler ctl.senders).2.2 } with ⟨st2, tr2⟩
      rw [hrec] at h
      simp only [Prod.mk.injEq] at h
      have hst : st2 = LoopState.finished out := h.1
      obtain ⟨e, err, hout, hlast⟩ := iterateLoop_finished fuel { ctl with handler := (ctl.himpl.onReady ctl.handler ctl.senders).2.1, senders := (ctl.himpl.onReady ctl.handler ctl.senders).2.2 } out tr2 hpres (by rw [hrec, hst])
      refine ⟨e, hout, Or.inl ⟨err, ?_⟩⟩
      have hne : tr2 ≠ [] := by
        intro hnil
        rw [hnil] at hlast
        cases hlast
      rw [← h.2, getLast?_cons_of_ne_nil _ tr2 hne]
      exact hlast

/-- Witness for C3 at the one-ready-bus witness controller with fuel 1. -/
theorem c3_try_run_loop_witness :
    ((ctlRunW.tryRunLoop 1).2).head? =
      some (.onReadyCalled
        (ctlRunW.himpl.onReady ctlRunW.handler ctlRunW.senders).1) ∧
    ((ctlRunW.tryRunLoop 1).2).countP Event.isOnReady = 1 ∧
    (∀ (err : EsbError Nat) (ctl1 : Controller Nat Nat Nat Unit)
      (tr : List (Event Nat Nat Nat)),
      ctlRunW.run = (.error err, ctl1, tr) →
      tr.countP Event.isHandleErr = 0 ∧
      (ctlRunW.loopIter).2.2 = tr ++
        [.handleErrCalled err
          (ctl1.himpl.handleErr ctl1.handler ctl1.senders err).1]) ∧
    (∀ (u : Unit) (ctl1 : Controller Nat Nat Nat Unit)
      (tr : List (Event Nat Nat Nat)),
      ctlRunW.run = (.ok u, ctl1, tr) →
      ((ctlRunW.loopIter).2.2).countP Event.isHandleErr = 0) ∧
    (∀ (n : Nat) (ctl1 : Controller Nat Nat Nat Unit)
      (tr1 : List (Event Nat Nat Nat)),
      ctlRunW.loopIter = (.ok (), ctl1, tr1) →
      Controller.iterateLoop (n + 1) ctlRunW =
        ((Controller.iterateLoop n ctl1).1,
          tr1 ++ (Controller.iterateLoop n ctl1).2)) ∧
    (ctlRunW.tryRunLoop 1).1 ≠ .finished (.ok ()) ∧
    (HandlePreservesKeys ctlRunW.himpl →
      ∀ (out : Outcome Nat Unit) (tr : List (Event Nat Nat Nat)),
        ctlRunW.tryRunLoop 1 = (.finished out, tr) →
        ∃ e, out = .error e ∧
          ((∃ err, tr.getLast? = some (.handleErrCalled err (.error e))) ∨
            tr = [.onReadyCalled (.error e)])) :=
  c3_try_run_loop 1 ctlRunW

end Esb
